import Mathlib

/-!
Shallow embedding of the stop-identity reconciliation engine of the
`warsaw_tmp_gtfs` pipeline (`fix_stops.py`): name slugification, the
stop-matching cascade of `FixStops`, the identity-rewriting pass
(`FixStops.process_stop` / `FixStops.execute`), and the
`MergeVirtualStops` virtual-stop folding pass.

Modelling conventions:
* Floating-point coordinates are modelled as rationals.
* The transcendental haversine distance `distance_km` is modelled as an
  abstract rational-valued function `d`, universally quantified in every
  theorem that involves it, so each such theorem holds in particular for
  the haversine instance.
* Python's `re.match(r"^...$", s)` is embedded with Python's `$`
  semantics: `$` also matches just before a single trailing newline.
* SQL tables are lists of records; the individual `raw_execute`
  statements of the source become list transformations.
-/

namespace WarsawGtfs

/-- Row of the `stops` table: the fields of `impuls.model.Stop` that
`fix_stops.py` reads (`id`, `code`, `name`, `lat`, `lon`). -/
structure Stop where
  id : String
  code : String
  name : String
  lat : ℚ
  lon : ℚ
deriving DecidableEq, Repr

/-- Row of the `stop_times` table, restricted to the columns that
`fix_stops.py` touches (`stop_id`) plus a key identifying the row. -/
structure StopTime where
  trip_id : String
  seq : Nat
  stop_id : String
deriving DecidableEq, Repr

/-- The feed database: the two tables `fix_stops.py` mutates. -/
structure DB where
  stops : List Stop
  stop_times : List StopTime
deriving DecidableEq, Repr

/-- External registry group record (`ExternalStopGroup` dataclass):
4-character group id, name slug, centroid coordinates. -/
structure ExternalStopGroup where
  id : String
  slug : String
  lat : ℚ
  lon : ℚ
deriving DecidableEq, Repr

/-- Python `str.lower`, modelled for ASCII letters and the Polish
uppercase diacritics occurring in `NO_POLISH_DIACRITICS_MAP`. -/
def plLower (c : Char) : Char :=
  if c = 'Ą' then 'ą' else if c = 'Ć' then 'ć' else if c = 'Ę' then 'ę'
  else if c = 'Ł' then 'ł' else if c = 'Ń' then 'ń' else if c = 'Ó' then 'ó'
  else if c = 'Ś' then 'ś' else if c = 'Ź' then 'ź' else if c = 'Ż' then 'ż'
  else c.toLower

/-- The `NO_POLISH_DIACRITICS_MAP` character translation table. -/
def noPolishDiacritics (c : Char) : Char :=
  if c = 'ą' then 'a' else if c = 'ć' then 'c' else if c = 'ę' then 'e'
  else if c = 'ł' then 'l' else if c = 'ń' then 'n' else if c = 'ó' then 'o'
  else if c = 'ś' then 's' else if c = 'ź' then 'z' else if c = 'ż' then 'z'
  else if c = 'Ą' then 'A' else if c = 'Ć' then 'C' else if c = 'Ę' then 'E'
  else if c = 'Ł' then 'L' else if c = 'Ń' then 'N' else if c = 'Ó' then 'O'
  else if c = 'Ś' then 'S' else if c = 'Ź' then 'Z' else if c = 'Ż' then 'Z'
  else c

/-- Membership in the regex class `\w`, for the post-translation (ASCII)
alphabet: letters, digits and the underscore. -/
def isWordChar (c : Char) : Bool :=
  c.isAlphanum || c = '_'

/-- Runs of `\w` characters, i.e. `re.findall(r"\w+", ·)`. The second
argument accumulates the current run in reverse. -/
def wordRuns : List Char → List Char → List String
  | [], acc => if acc.isEmpty then [] else [String.mk acc.reverse]
  | c :: cs, acc =>
    if isWordChar c then wordRuns cs (c :: acc)
    else if acc.isEmpty then wordRuns cs []
    else String.mk acc.reverse :: wordRuns cs []

/-- The `NAME_WORD_NORMALIZE` abbreviation table lookup
(`NAME_WORD_NORMALIZE.get(word, word)`). -/
def nameWordNormalize (w : String) : String :=
  if w = "osiedle" then "os"
  else if w = "dworzec" then "dw"
  else if w = "cmentarz" then "cm"
  else if w = "plac" then "pl"
  else if w = "aleja" then "al"
  else if w = "aleje" then "al"
  else w

/-- The `slugify_name` function: lowercase, fold diacritics, tokenize
into word runs, abbreviate known words, join with underscores. -/
def slugify_name (name : String) : String :=
  let chars := name.data.map (fun c => noPolishDiacritics (plLower c))
  let words := wordRuns chars []
  String.intercalate "_" (words.map nameWordNormalize)

/-- Result of Python `re.match(r"^[0-9][0-9]$", code)` being truthy.
Per Python semantics, `$` also matches just before one trailing
newline, so `"12\n"` is accepted in addition to the two-digit strings. -/
def twoDigitCodeMatch (s : String) : Bool :=
  match s.data with
  | [a, b] => a.isDigit && b.isDigit
  | [a, b, c] => a.isDigit && b.isDigit && c == '\n'
  | _ => false

/-- Modelled from the spec: the spec-side reading of step 1 of the
matching cascade, a code that "matches the 2-digit numeric pattern
exactly" — exactly two characters, both ASCII digits. Used only to
compare the spec's predicate with the implemented `twoDigitCodeMatch`. -/
def specExactTwoDigitCode (s : String) : Bool :=
  match s.data with
  | [a, b] => a.isDigit && b.isDigit
  | _ => false

/-- Lookup in the `external_groups_by_slug` index. The index is a
`defaultdict` filled by appending each group of the `groups` list in
order, so the value under `slug` is the sublist of groups carrying that
slug, in list order; `.get` yields no groups (`None`) when the slug is
absent, which coincides with the empty sublist. -/
def groupsBySlug (groups : List ExternalStopGroup) (slug : String) :
    List ExternalStopGroup :=
  groups.filter (fun g => g.slug = slug)

/-- Square of `math.dist((g.lat, g.lon), (stop.lat, stop.lon))`.
`math.dist` itself is the square root of this quantity; since the square
root is strictly monotone, `min` keyed by `math.dist` selects exactly
the element selected by this key (proved against `Real.sqrt` below). -/
def euclidSq (stop : Stop) (g : ExternalStopGroup) : ℚ :=
  (g.lat - stop.lat) ^ 2 + (g.lon - stop.lon) ^ 2

/-- Python `min(b :: l, key)`: scan left to right keeping the incumbent
unless a strictly smaller key appears, so the first minimal element
wins. -/
def minByKey {α : Type} (key : α → ℚ) : α → List α → α
  | b, [] => b
  | b, x :: xs => if key x < key b then minByKey key x xs else minByKey key b xs

/-- The `FixStops.unmatch_if_too_far` method. The argument `d` stands
for `distance_km` applied to `(stop.lat, stop.lon, group.lat,
group.lon)`: the resolution is discarded when the distance exceeds
1.5 km. -/
def unmatch_if_too_far (d : ℚ → ℚ → ℚ → ℚ → ℚ) (stop : Stop)
    (group : ExternalStopGroup) (new_id : String) : String :=
  if d stop.lat stop.lon group.lat group.lon > 1.5 then "" else new_id

/-- The `FixStops.match_stop` method (with the commented-out
position-based strategy of the source omitted, as in the running code):
validate the code, look the slugified name up in the group index, take
the unique candidate or the candidate closest in squared Euclidean
distance, then reject ids whose group centroid is too far. The empty
string is the failure marker. -/
def match_stop (d : ℚ → ℚ → ℚ → ℚ → ℚ) (groups : List ExternalStopGroup)
    (stop : Stop) : String :=
  if twoDigitCodeMatch stop.code then
    match groupsBySlug groups (slugify_name stop.name) with
    | [] => ""
    | [g] => unmatch_if_too_far d stop g (g.id ++ stop.code)
    | g :: g2 :: rest =>
      let g' := minByKey (euclidSq stop) g (g2 :: rest)
      unmatch_if_too_far d stop g' (g'.id ++ stop.code)
  else ""

/-- The statement `UPDATE stop_times SET stop_id = new WHERE stop_id = old`. -/
def updateStopTimesStopId (new_id old_id : String) (db : DB) : DB :=
  { db with
    stop_times := db.stop_times.map (fun st =>
      if st.stop_id = old_id then { st with stop_id := new_id } else st) }

/-- The statement `DELETE FROM stops WHERE stop_id = old`. -/
def deleteStopById (old_id : String) (db : DB) : DB :=
  { db with stops := db.stops.filter (fun s => s.id ≠ old_id) }

/-- The statement `UPDATE stops SET stop_id = new WHERE stop_id = old`. -/
def updateStopsStopId (new_id old_id : String) (db : DB) : DB :=
  { db with
    stops := db.stops.map (fun s =>
      if s.id = old_id then { s with id := new_id } else s) }

/-- A stop id carried into the run's working namespace, as done by
`UPDATE stops SET stop_id = concat('_gtfs_', stop_id)`. -/
def gtfsTag (s : Stop) : Stop :=
  { s with id := "_gtfs_" ++ s.id }

/-- The statement `UPDATE stops SET stop_id = concat('_gtfs_', stop_id)`. -/
def tagAllStopIds (db : DB) : DB :=
  { db with stops := db.stops.map gtfsTag }

/-- The `FixStops.process_stop` method. State is the database plus the
`seen_ids` set (modelled as a list queried by membership): an
unresolved stop is left untouched; a resolved id already seen repoints
the referencing `stop_times` rows and deletes the duplicate stop row; a
fresh resolved id renames the stop row and is marked as seen. -/
def process_stop (d : ℚ → ℚ → ℚ → ℚ → ℚ) (groups : List ExternalStopGroup)
    (stop : Stop) : DB × List String → DB × List String
  | (db, seen) =>
    let fixed_id := match_stop d groups stop
    if fixed_id = "" then (db, seen)
    else if fixed_id ∈ seen then
      (deleteStopById stop.id (updateStopTimesStopId fixed_id stop.id db), seen)
    else
      (updateStopsStopId fixed_id stop.id db, fixed_id :: seen)

/-- The `FixStops.execute` method: clear `seen_ids`, move every stop id
into the `_gtfs_` working namespace, snapshot the stop list, and process
each stop in order. Loading of the external registry is abstracted by
the `groups` parameter (the built by-slug index source list). -/
def executeFixStops (d : ℚ → ℚ → ℚ → ℚ → ℚ)
    (groups : List ExternalStopGroup) (db : DB) : DB :=
  let db1 := tagAllStopIds db
  (db1.stops.foldl (fun acc s => process_stop d groups s acc) (db1, [])).1

/-- Result of Python `re.match(r"^[0-9]{4}8[1-9]$", s)` being truthy,
again with Python's `$` also accepting one trailing newline. -/
def isVirtualStopId (s : String) : Bool :=
  match s.data with
  | [a, b, c, dg, e, f] =>
    a.isDigit && b.isDigit && c.isDigit && dg.isDigit && e == '8' &&
      (decide ('1' ≤ f) && decide (f ≤ '9'))
  | [a, b, c, dg, e, f, g] =>
    a.isDigit && b.isDigit && c.isDigit && dg.isDigit && e == '8' &&
      (decide ('1' ≤ f) && decide (f ≤ '9')) && g == '\n'
  | _ => false

/-- Modelled from the spec: the spec-side reading of the virtual-stop
pattern — exactly six characters, four digits then `8` then a digit
`1`-`9`. Used only to compare with the implemented `isVirtualStopId`. -/
def specVirtualStopId (s : String) : Bool :=
  match s.data with
  | [a, b, c, dg, e, f] =>
    a.isDigit && b.isDigit && c.isDigit && dg.isDigit && e == '8' &&
      (decide ('1' ≤ f) && decide (f ≤ '9'))
  | _ => false

/-- The `MergeVirtualStops.find_virtual_stops` method (sets modelled as
lists queried by membership). -/
def find_virtual_stops (all_ids : List String) : List String :=
  all_ids.filter isVirtualStopId

/-- The candidate `f"{virtual[:4]}{i}{virtual[5:]}"` for `i < 8`
(`str(i)` is the single digit character for such `i`). -/
def siblingCandidate (virtual : String) (i : Nat) : String :=
  String.mk (virtual.data.take 4 ++ [Nat.digitChar i] ++ virtual.data.drop 5)

/-- The `MergeVirtualStops.find_replacement_stop` method: the hardcoded
Metro Młociny exception, then the first present candidate with the
fifth character replaced by `0`, `1`, ..., `7`; `none` when the loop
falls through. -/
def find_replacement_stop (virtual : String) (all : List String) :
    Option String :=
  if virtual = "605988" ∧ "605928" ∈ all then some "605928"
  else ((List.range 8).map (siblingCandidate virtual)).find?
    (fun c => decide (c ∈ all))

/-- The `MergeVirtualStops.generate_replacement_pairs` method: each
virtual id with a replacement yields the pair `(replacement, id)`. -/
def generate_replacement_pairs (virtual all : List String) :
    List (String × String) :=
  virtual.filterMap (fun v => (find_replacement_stop v all).map (fun r => (r, v)))

/-! Concrete fixtures used by the witness and counterexample theorems. -/

/-- A distance function that reports 0 km for every pair of points;
used to instantiate the abstract `distance_km` parameter in witnesses. -/
def dZero : ℚ → ℚ → ℚ → ℚ → ℚ := fun _ _ _ _ => 0

/-- A registry group with id `1234` under the slug `foo`. -/
def grpFoo : ExternalStopGroup := ⟨"1234", "foo", 0, 0⟩

/-- A raw stop with a valid code that resolves against `grpFoo`. -/
def stopFoo : Stop := ⟨"_gtfs_A01", "01", "Foo", 0, 0⟩

/-! Helper lemmas about strings and the `_gtfs_` working namespace. -/

/-- A string whose first character is not an underscore is not of the
form `"_gtfs_" ++ y`. -/
lemma ne_gtfs_append_of_head (s : String) (h : s.data.head? ≠ some '_') :
    ∀ y, s ≠ "_gtfs_" ++ y := by
  intro y heq
  apply h
  rw [heq, String.data_append]
  rfl

/-- Appending to the `_gtfs_` marker is injective. -/
lemma gtfs_append_inj {a b : String} (h : "_gtfs_" ++ a = "_gtfs_" ++ b) :
    a = b := by
  have hd := congrArg String.data h
  rw [String.data_append, String.data_append] at hd
  exact String.ext (List.append_cancel_left hd)

/-! Helper lemmas about the matching cascade. -/

/-- A non-empty result of `unmatch_if_too_far` is the tentative id and
certifies the 1.5 km distance bound. -/
lemma unmatch_cases (d : ℚ → ℚ → ℚ → ℚ → ℚ) (stop : Stop)
    (group : ExternalStopGroup) (new_id : String)
    (h : unmatch_if_too_far d stop group new_id ≠ "") :
    unmatch_if_too_far d stop group new_id = new_id ∧
      d stop.lat stop.lon group.lat group.lon ≤ 1.5 := by
  unfold unmatch_if_too_far at h ⊢
  by_cases hd : d stop.lat stop.lon group.lat group.lon > 1.5
  · rw [if_pos hd] at h
    exact absurd rfl h
  · rw [if_neg hd]
    exact ⟨rfl, le_of_not_lt hd⟩

/-- When the code is rejected, `match_stop` fails. -/
lemma match_stop_eq_empty_of_bad_code (d : ℚ → ℚ → ℚ → ℚ → ℚ)
    (groups : List ExternalStopGroup) (stop : Stop)
    (hc : ¬ twoDigitCodeMatch stop.code = true) :
    match_stop d groups stop = "" := by
  unfold match_stop
  rw [if_neg hc]

/-- When the slug is unknown, `match_stop` fails. -/
lemma match_stop_eq_empty_of_no_groups (d : ℚ → ℚ → ℚ → ℚ → ℚ)
    (groups : List ExternalStopGroup) (stop : Stop)
    (hgm : groupsBySlug groups (slugify_name stop.name) = []) :
    match_stop d groups stop = "" := by
  unfold match_stop
  by_cases hc : twoDigitCodeMatch stop.code = true
  · rw [if_pos hc, hgm]
  · rw [if_neg hc]

/-- The unique-candidate branch of `match_stop`. -/
lemma match_stop_eq_unmatch (d : ℚ → ℚ → ℚ → ℚ → ℚ)
    (groups : List ExternalStopGroup) (stop : Stop) (g : ExternalStopGroup)
    (hc : twoDigitCodeMatch stop.code = true)
    (hgm : groupsBySlug groups (slugify_name stop.name) = [g]) :
    match_stop d groups stop = unmatch_if_too_far d stop g (g.id ++ stop.code) := by
  unfold match_stop
  rw [if_pos hc, hgm]

/-- The multiple-candidate branch of `match_stop`. -/
lemma match_stop_eq_unmatch_multi (d : ℚ → ℚ → ℚ → ℚ → ℚ)
    (groups : List ExternalStopGroup) (stop : Stop)
    (g g2 : ExternalStopGroup) (rest : List ExternalStopGroup)
    (hc : twoDigitCodeMatch stop.code = true)
    (hgm : groupsBySlug groups (slugify_name stop.name) = g :: g2 :: rest) :
    match_stop d groups stop =
      unmatch_if_too_far d stop (minByKey (euclidSq stop) g (g2 :: rest))
        ((minByKey (euclidSq stop) g (g2 :: rest)).id ++ stop.code) := by
  unfold match_stop
  rw [if_pos hc, hgm]

/-- The element picked by `minByKey` belongs to the scanned list. -/
lemma minByKey_mem {α : Type} (key : α → ℚ) :
    ∀ (l : List α) (b : α), minByKey key b l ∈ b :: l := by
  intro l
  induction l with
  | nil =>
    intro b
    exact List.mem_singleton.mpr rfl
  | cons x xs ih =>
    intro b
    have hred : minByKey key b (x :: xs) =
        if key x < key b then minByKey key x xs else minByKey key b xs := rfl
    by_cases h : key x < key b
    · rw [hred, if_pos h]
      exact List.mem_cons_of_mem b (ih x)
    · rw [hred, if_neg h]
      rcases List.mem_cons.mp (ih b) with h1 | h1
      · rw [h1]
        exact List.mem_cons_self b (x :: xs)
      · exact List.mem_cons_of_mem b (List.mem_cons_of_mem x h1)

/-- The key of the element picked by `minByKey` is minimal over the
scanned list. -/
lemma minByKey_le {α : Type} (key : α → ℚ) :
    ∀ (l : List α) (b x : α), x ∈ b :: l → key (minByKey key b l) ≤ key x := by
  intro l
  induction l with
  | nil =>
    intro b x hx
    rw [List.mem_singleton] at hx
    subst hx
    exact le_refl _
  | cons y ys ih =>
    intro b x hx
    have hred : minByKey key b (y :: ys) =
        if key y < key b then minByKey key y ys else minByKey key b ys := rfl
    by_cases h : key y < key b
    · rw [hred, if_pos h]
      rcases List.mem_cons.mp hx with rfl | hx'
      · exact le_of_lt (lt_of_le_of_lt (ih y y (List.mem_cons_self y ys)) h)
      · exact ih y x hx'
    · rw [hred, if_neg h]
      rcases List.mem_cons.mp hx with rfl | hx'
      · exact ih x x (List.mem_cons_self x ys)
      · rcases List.mem_cons.mp hx' with rfl | hx''
        · exact le_trans (ih b b (List.mem_cons_self b ys)) (le_of_not_lt h)
        · exact ih b x (List.mem_cons_of_mem b hx'')

/-- The element picked by `minByKey` is the first minimal one: every
element strictly before it in the scanned list has a strictly larger
key. -/
lemma minByKey_split {α : Type} (key : α → ℚ) :
    ∀ (l : List α) (b : α), ∃ pre post,
      b :: l = pre ++ minByKey key b l :: post ∧
      ∀ x ∈ pre, key (minByKey key b l) < key x := by
  intro l
  induction l with
  | nil =>
    intro b
    exact ⟨[], [], rfl, by simp⟩
  | cons x xs ih =>
    intro b
    have hred : minByKey key b (x :: xs) =
        if key x < key b then minByKey key x xs else minByKey key b xs := rfl
    by_cases h : key x < key b
    · obtain ⟨pre, post, hsplit, hpre⟩ := ih x
      rw [hred, if_pos h]
      refine ⟨b :: pre, post, ?_, ?_⟩
      · exact congrArg (b :: ·) hsplit
      · intro y hy
        rcases List.mem_cons.mp hy with rfl | hy'
        · exact lt_of_le_of_lt (minByKey_le key xs x x (List.mem_cons_self x xs)) h
        · exact hpre y hy'
    · obtain ⟨pre, post, hsplit, hpre⟩ := ih b
      rw [hred, if_neg h]
      rcases pre with _ | ⟨p0, pre'⟩
      · rw [List.nil_append] at hsplit
        obtain ⟨hb, -⟩ := List.cons_eq_cons.mp hsplit
        refine ⟨[], x :: xs, ?_, by simp⟩
        rw [List.nil_append, ← hb]
      · rw [List.cons_append] at hsplit
        obtain ⟨hp0, hxs⟩ := List.cons_eq_cons.mp hsplit
        refine ⟨b :: x :: pre', post, ?_, ?_⟩
        · rw [List.cons_append, List.cons_append, ← hxs]
        · intro y hy
          have hmb : key (minByKey key b xs) < key b := by
            have := hpre p0 (List.mem_cons_self p0 pre')
            rw [← hp0] at this
            exact this
          rcases List.mem_cons.mp hy with rfl | hy'
          · exact hmb
          · rcases List.mem_cons.mp hy' with rfl | hy''
            · exact lt_of_lt_of_le hmb (le_of_not_lt h)
            · exact hpre y (List.mem_cons_of_mem p0 hy'')

/-- A non-empty result of `match_stop` certifies: the code passed
validation, the id is a candidate group's id concatenated with the
code, and the distance check succeeded. -/
lemma match_stop_cases (d : ℚ → ℚ → ℚ → ℚ → ℚ)
    (groups : List ExternalStopGroup) (stop : Stop)
    (h : match_stop d groups stop ≠ "") :
    twoDigitCodeMatch stop.code = true ∧
    ∃ g ∈ groupsBySlug groups (slugify_name stop.name),
      match_stop d groups stop = g.id ++ stop.code ∧
      d stop.lat stop.lon g.lat g.lon ≤ 1.5 := by
  by_cases hc : twoDigitCodeMatch stop.code = true
  · rcases hgm : groupsBySlug groups (slugify_name stop.name) with _ | ⟨g, _ | ⟨g2, rest⟩⟩
    · exact absurd (match_stop_eq_empty_of_no_groups d groups stop hgm) h
    · have he := match_stop_eq_unmatch d groups stop g hc hgm
      have hne : unmatch_if_too_far d stop g (g.id ++ stop.code) ≠ "" :=
        fun hh => h (he.trans hh)
      have hu := unmatch_cases d stop g (g.id ++ stop.code) hne
      exact ⟨hc, g, List.mem_singleton.mpr rfl, he.trans hu.1, hu.2⟩
    · have he := match_stop_eq_unmatch_multi d groups stop g g2 rest hc hgm
      have hne : unmatch_if_too_far d stop (minByKey (euclidSq stop) g (g2 :: rest))
          ((minByKey (euclidSq stop) g (g2 :: rest)).id ++ stop.code) ≠ "" :=
        fun hh => h (he.trans hh)
      have hu := unmatch_cases d stop _ _ hne
      exact ⟨hc, minByKey (euclidSq stop) g (g2 :: rest),
        minByKey_mem (euclidSq stop) (g2 :: rest) g, he.trans hu.1, hu.2⟩
  · exact absurd (match_stop_eq_empty_of_bad_code d groups stop hc) h

/-- Evaluation helper for witnesses: under the `dZero` distance and a
unique slug match, `match_stop` returns the group id plus the code. -/
lemma match_stop_dZero_unique (groups : List ExternalStopGroup) (stop : Stop)
    (g : ExternalStopGroup)
    (hc : twoDigitCodeMatch stop.code = true)
    (hgm : groupsBySlug groups (slugify_name stop.name) = [g]) :
    match_stop dZero groups stop = g.id ++ stop.code := by
  rw [match_stop_eq_unmatch dZero groups stop g hc hgm]
  unfold unmatch_if_too_far dZero
  rw [if_neg]
  norm_num

/-- Candidate groups returned by the slug index belong to the group list. -/
lemma groupsBySlug_subset (groups : List ExternalStopGroup) (slug : String) :
    ∀ g ∈ groupsBySlug groups slug, g ∈ groups := by
  intro g hg
  unfold groupsBySlug at hg
  exact (List.mem_filter.mp hg).1

/-- Evaluation of `match_stop` on the `stopFoo` fixture. -/
lemma stopFoo_match : match_stop dZero [grpFoo] stopFoo = "123401" := by
  rw [match_stop_dZero_unique [grpFoo] stopFoo grpFoo (by decide) (by decide)]
  decide

/-- C1: for a raw stop with a valid 2-character numeric code, matched
against an index whose group ids are 4 characters long, a non-empty id
returned by `match_stop` is a candidate group's 4-character id
concatenated with the stop's code; in particular the suffix of the
resolved id after the 4-character group id is exactly the input code. -/
theorem c1_resolved_id_is_group_id_plus_code (d : ℚ → ℚ → ℚ → ℚ → ℚ)
    (groups : List ExternalStopGroup) (stop : Stop)
    (hcode : specExactTwoDigitCode stop.code = true)
    (hlen : ∀ g ∈ groups, g.id.length = 4)
    (hne : match_stop d groups stop ≠ "") :
    ∃ g ∈ groupsBySlug groups (slugify_name stop.name),
      g.id.length = 4 ∧
      match_stop d groups stop = g.id ++ stop.code ∧
      (match_stop d groups stop).data.drop 4 = stop.code.data := by
  obtain ⟨-, g, hg, heq, -⟩ := match_stop_cases d groups stop hne
  have hlen4 : g.id.length = 4 :=
    hlen g (groupsBySlug_subset groups (slugify_name stop.name) g hg)
  refine ⟨g, hg, hlen4, heq, ?_⟩
  rw [heq, String.data_append]
  have hdl : g.id.data.length = 4 := hlen4
  rw [← hdl]
  exact List.drop_left g.id.data stop.code.data

/-- C1 witness: the fixture stop resolves to `"123401"`, which is the
group id `"1234"` followed by the code `"01"`. -/
theorem c1_witness :
    ∃ g ∈ groupsBySlug [grpFoo] (slugify_name stopFoo.name),
      g.id.length = 4 ∧
      match_stop dZero [grpFoo] stopFoo = g.id ++ stopFoo.code ∧
      (match_stop dZero [grpFoo] stopFoo).data.drop 4 = stopFoo.code.data :=
  c1_resolved_id_is_group_id_plus_code dZero [grpFoo] stopFoo (by decide)
    (by decide) (by rw [stopFoo_match]; decide)

/-- C2: `match_stop` returns a non-empty resolved id only when the
distance between the stop and the chosen group's centroid is at most
1.5 km, and `unmatch_if_too_far` rejects every candidate farther than
1.5 km with the empty failure marker. -/
theorem c2_distance_bound (d : ℚ → ℚ → ℚ → ℚ → ℚ)
    (groups : List ExternalStopGroup) (stop : Stop)
    (hne : match_stop d groups stop ≠ "") :
    (∃ g ∈ groupsBySlug groups (slugify_name stop.name),
      match_stop d groups stop = g.id ++ stop.code ∧
      d stop.lat stop.lon g.lat g.lon ≤ 1.5) ∧
    ∀ (g : ExternalStopGroup) (new_id : String),
      1.5 < d stop.lat stop.lon g.lat g.lon →
      unmatch_if_too_far d stop g new_id = "" := by
  obtain ⟨-, g, hg, heq, hd⟩ := match_stop_cases d groups stop hne
  refine ⟨⟨g, hg, heq, hd⟩, ?_⟩
  intro g' new_id hfar
  unfold unmatch_if_too_far
  rw [if_pos hfar]

/-- C2 witness: the fixture resolution is within the 1.5 km bound. -/
theorem c2_witness :
    ∃ g ∈ groupsBySlug [grpFoo] (slugify_name stopFoo.name),
      match_stop dZero [grpFoo] stopFoo = g.id ++ stopFoo.code ∧
      dZero stopFoo.lat stopFoo.lon g.lat g.lon ≤ 1.5 :=
  (c2_distance_bound dZero [grpFoo] stopFoo (by rw [stopFoo_match]; decide)).1

/-- A raw stop whose code is two digits followed by a newline: Python's
`$` accepts it although it is not exactly two characters. -/
def stopNewline : Stop := ⟨"_gtfs_B", "12\n", "Foo", 0, 0⟩

/-- A raw stop with the spec's example invalid code `"abc"`. -/
def stopAbc : Stop := ⟨"R1", "abc", "Plac Zamkowy", 0, 0⟩

/-- C3 counterexample: the code `"12\n"` does not match the exact
2-digit pattern, yet `match_stop` accepts it (Python's `$` also matches
before a trailing newline), consults the slug index, resolves the stop,
and `process_stop` renames it. -/
theorem c3_counterexample :
    specExactTwoDigitCode stopNewline.code = false ∧
    match_stop dZero [grpFoo] stopNewline ≠ "" ∧
    (process_stop dZero [grpFoo] stopNewline
      (⟨[stopNewline], []⟩, [])).1.stops ≠ [stopNewline] := by
  have hm : match_stop dZero [grpFoo] stopNewline = "1234" ++ "12\n" :=
    match_stop_dZero_unique [grpFoo] stopNewline grpFoo (by decide) (by decide)
  refine ⟨by decide, by rw [hm]; decide, ?_⟩
  simp only [process_stop]
  rw [hm]
  decide

/-- C3 (amended): for every raw stop whose code fails the implemented
pattern check (two ASCII digits, optionally followed by the single
trailing newline that Python's `$` tolerates), `match_stop` fails with
the empty marker for every group index — so the slug index is never
consulted — and `process_stop` leaves the database and the seen set
unchanged. -/
theorem c3_invalid_code_rejected (stop : Stop)
    (hc : ¬ twoDigitCodeMatch stop.code = true) :
    (∀ (d : ℚ → ℚ → ℚ → ℚ → ℚ) (groups : List ExternalStopGroup),
      match_stop d groups stop = "") ∧
    ∀ (d : ℚ → ℚ → ℚ → ℚ → ℚ) (groups : List ExternalStopGroup)
      (db : DB) (seen : List String),
      process_stop d groups stop (db, seen) = (db, seen) := by
  have hm : ∀ (d : ℚ → ℚ → ℚ → ℚ → ℚ) (groups : List ExternalStopGroup),
      match_stop d groups stop = "" := fun d groups =>
    match_stop_eq_empty_of_bad_code d groups stop hc
  refine ⟨hm, ?_⟩
  intro d groups db seen
  simp only [process_stop, hm]
  rw [if_pos trivial]

/-- C3 witness: the stop with code `"abc"` is rejected and left
untouched by the rewriter. -/
theorem c3_witness :
    match_stop dZero [grpFoo] stopAbc = "" ∧
    process_stop dZero [grpFoo] stopAbc (⟨[stopAbc], []⟩, []) =
      (⟨[stopAbc], []⟩, []) :=
  ⟨(c3_invalid_code_rejected stopAbc (by decide)).1 dZero [grpFoo],
   (c3_invalid_code_rejected stopAbc (by decide)).2 dZero [grpFoo]
     ⟨[stopAbc], []⟩ []⟩

/-- C4: with at least two candidate groups under the stop's name slug,
`match_stop` picks the first candidate minimizing the Euclidean
distance to the stop — its distance is no larger than any candidate's
and strictly smaller than every earlier candidate's — and its tentative
id is the chosen group's id concatenated with the stop's code, passed
to the final distance check. -/
theorem c4_closest_group_selected (d : ℚ → ℚ → ℚ → ℚ → ℚ)
    (groups : List ExternalStopGroup) (stop : Stop)
    (g g2 : ExternalStopGroup) (rest : List ExternalStopGroup)
    (hcode : twoDigitCodeMatch stop.code = true)
    (hgm : groupsBySlug groups (slugify_name stop.name) = g :: g2 :: rest) :
    ∃ pre post,
      g :: g2 :: rest = pre ++ minByKey (euclidSq stop) g (g2 :: rest) :: post ∧
      (∀ h ∈ g :: g2 :: rest,
        Real.sqrt ((euclidSq stop (minByKey (euclidSq stop) g (g2 :: rest)) : ℚ) : ℝ) ≤
          Real.sqrt ((euclidSq stop h : ℚ) : ℝ)) ∧
      (∀ h ∈ pre,
        Real.sqrt ((euclidSq stop (minByKey (euclidSq stop) g (g2 :: rest)) : ℚ) : ℝ) <
          Real.sqrt ((euclidSq stop h : ℚ) : ℝ)) ∧
      match_stop d groups stop =
        unmatch_if_too_far d stop (minByKey (euclidSq stop) g (g2 :: rest))
          ((minByKey (euclidSq stop) g (g2 :: rest)).id ++ stop.code) := by
  obtain ⟨pre, post, hsplit, hpre⟩ := minByKey_split (euclidSq stop) (g2 :: rest) g
  refine ⟨pre, post, hsplit, ?_, ?_,
    match_stop_eq_unmatch_multi d groups stop g g2 rest hcode hgm⟩
  · intro h hh
    exact Real.sqrt_le_sqrt
      (by exact_mod_cast minByKey_le (euclidSq stop) (g2 :: rest) g h hh)
  · intro h hh
    refine Real.sqrt_lt_sqrt ?_ ?_
    · have h0 : (0 : ℚ) ≤ euclidSq stop (minByKey (euclidSq stop) g (g2 :: rest)) := by
        unfold euclidSq
        positivity
      exact_mod_cast h0
    · exact_mod_cast hpre h hh

/-- A candidate group under the slug `bar`, 5 degrees away. -/
def grpBarA : ExternalStopGroup := ⟨"1000", "bar", 5, 5⟩

/-- A second candidate group under the slug `bar`, at the stop itself. -/
def grpBarB : ExternalStopGroup := ⟨"2000", "bar", 0, 0⟩

/-- A raw stop whose slug `bar` is ambiguous between two groups. -/
def stopBar : Stop := ⟨"_gtfs_C02", "02", "Bar", 0, 0⟩

/-- C4 witness: with two candidates under the slug `bar`, the closer
group `grpBarB` is selected. -/
theorem c4_witness :
    ∃ pre post,
      [grpBarA, grpBarB] =
        pre ++ minByKey (euclidSq stopBar) grpBarA [grpBarB] :: post ∧
      (∀ h ∈ [grpBarA, grpBarB],
        Real.sqrt ((euclidSq stopBar (minByKey (euclidSq stopBar) grpBarA [grpBarB]) : ℚ) : ℝ) ≤
          Real.sqrt ((euclidSq stopBar h : ℚ) : ℝ)) ∧
      (∀ h ∈ pre,
        Real.sqrt ((euclidSq stopBar (minByKey (euclidSq stopBar) grpBarA [grpBarB]) : ℚ) : ℝ) <
          Real.sqrt ((euclidSq stopBar h : ℚ) : ℝ)) ∧
      match_stop dZero [grpBarA, grpBarB] stopBar =
        unmatch_if_too_far dZero stopBar (minByKey (euclidSq stopBar) grpBarA [grpBarB])
          ((minByKey (euclidSq stopBar) grpBarA [grpBarB]).id ++ stopBar.code) :=
  c4_closest_group_selected dZero [grpBarA, grpBarB] stopBar grpBarA grpBarB []
    (by decide) (by decide)

/-- C7 counterexample: with `"123483"` the only present id among the
claim's alleged sibling range, `find_replacement_stop` finds no
replacement for `"123481"` at all — the code substitutes the fifth
character, so `"123483"` is not one of its candidates. -/
theorem c7_counterexample :
    find_replacement_stop "123481" ["123481", "123483"] = none ∧
    "123483" ∈ ["123481", "123483"] := by
  decide

/-- C7 (amended): the candidate siblings of the virtual id `"123481"`
are `"123401"`, `"123411"`, ..., `"123471"` (fifth character replaced
by 0-7); when `"123431"` is present and no other candidate sibling is,
the merger folds `"123481"` into `"123431"`. -/
theorem c7_first_present_sibling (all : List String)
    (hmem : "123431" ∈ all)
    (h0 : "123401" ∉ all) (h1 : "123411" ∉ all) (h2 : "123421" ∉ all)
    (h4 : "123441" ∉ all) (h5 : "123451" ∉ all) (h6 : "123461" ∉ all)
    (h7 : "123471" ∉ all) :
    find_replacement_stop "123481" all = some "123431" := by
  unfold find_replacement_stop
  rw [if_neg (fun hand => absurd hand.1 (by decide))]
  have hc : (List.range 8).map (siblingCandidate "123481") =
      ["123401", "123411", "123421", "123431", "123441", "123451",
       "123461", "123471"] := by decide
  rw [hc]
  rw [List.find?_cons_of_neg _ (by simpa using h0)]
  rw [List.find?_cons_of_neg _ (by simpa using h1)]
  rw [List.find?_cons_of_neg _ (by simpa using h2)]
  rw [List.find?_cons_of_pos _ (by simpa using hmem)]

/-- C7 witness: with only `"123431"` present among the candidate
siblings, `"123481"` folds into it. -/
theorem c7_witness :
    find_replacement_stop "123481" ["123481", "123431"] = some "123431" :=
  c7_first_present_sibling ["123481", "123431"] (by decide) (by decide)
    (by decide) (by decide) (by decide) (by decide) (by decide) (by decide)

/-- C8 counterexample: when `"605928"` is absent, the hardcoded
exception does not fire and `"605988"` folds into the generic sibling
`"605908"`, not into `"605928"`. -/
theorem c8_counterexample :
    find_replacement_stop "605988" ["605988", "605908"] = some "605908" ∧
    some "605908" ≠ some "605928" := by
  decide

/-- C8 (amended): whenever `"605928"` is among the existing ids, the
virtual id `"605988"` maps to `"605928"`, even when a
generically-computed sibling is also present and would otherwise be
picked first. -/
theorem c8_hardcoded_exception (all : List String) (h : "605928" ∈ all) :
    find_replacement_stop "605988" all = some "605928" := by
  unfold find_replacement_stop
  rw [if_pos ⟨rfl, h⟩]

/-- C8 witness: with the generic sibling `"605908"` also present —
which the generic rule would pick first — `"605988"` still maps to
`"605928"`. -/
theorem c8_witness :
    find_replacement_stop "605988" ["605988", "605908", "605928"] =
      some "605928" :=
  c8_hardcoded_exception ["605988", "605908", "605928"] (by decide)

/-- Digits 0-7 are distinct from the character `'8'`. -/
lemma digitChar_lt_eight_ne : ∀ i < 8, Nat.digitChar i ≠ '8' := by decide

/-- Any id accepted by the virtual-stop pattern starts with a digit and
carries `'8'` as its fifth character. -/
lemma virtual_id_shape (v : String) (hv : isVirtualStopId v = true) :
    ∃ a b c dg f t, v.data = a :: b :: c :: dg :: '8' :: f :: t ∧
      a.isDigit = true := by
  obtain ⟨l⟩ := v
  show ∃ a b c dg f t, l = a :: b :: c :: dg :: '8' :: f :: t ∧ a.isDigit = true
  rcases l with _ | ⟨a, _ | ⟨b, _ | ⟨c, _ | ⟨dg, _ | ⟨e, _ | ⟨f, _ | ⟨g7, _ | ⟨h8, t⟩⟩⟩⟩⟩⟩⟩⟩
  all_goals simp only [isVirtualStopId] at hv
  all_goals try exact absurd hv Bool.false_ne_true
  · simp only [Bool.and_eq_true, beq_iff_eq, decide_eq_true_eq] at hv
    obtain ⟨⟨⟨⟨⟨ha, -⟩, -⟩, -⟩, he⟩, -⟩ := hv
    exact ⟨a, b, c, dg, f, [], by rw [he], ha⟩
  · simp only [Bool.and_eq_true, beq_iff_eq, decide_eq_true_eq] at hv
    obtain ⟨⟨⟨⟨⟨⟨ha, -⟩, -⟩, -⟩, he⟩, -⟩, -⟩ := hv
    exact ⟨a, b, c, dg, f, [g7], by rw [he], ha⟩

/-- C9: a virtual id is never its own replacement: a generic candidate
replaces the fifth character `'8'` by a digit 0-7, and the hardcoded
exception returns `"605928" ≠ "605988"`; hence the merge pass never
repoints records to the stop it is about to delete. -/
theorem c9_replacement_never_self (v : String) (all : List String)
    (hv : isVirtualStopId v = true) :
    find_replacement_stop v all ≠ some v := by
  intro hres
  unfold find_replacement_stop at hres
  by_cases hguard : v = "605988" ∧ "605928" ∈ all
  · rw [if_pos hguard] at hres
    have h28 : "605928" = v := Option.some_inj.mp hres
    exact absurd (h28.trans hguard.1) (by decide)
  · rw [if_neg hguard] at hres
    have hvmem := List.mem_of_find?_eq_some hres
    obtain ⟨i, hir, hsib⟩ := List.mem_map.mp hvmem
    have hi8 : i < 8 := List.mem_range.mp hir
    obtain ⟨a, b, c, dg, f, t, hdata, -⟩ := virtual_id_shape v hv
    unfold siblingCandidate at hsib
    have hd := congrArg String.data hsib
    rw [hdata] at hd
    have hd2 : a :: b :: c :: dg :: Nat.digitChar i :: f :: t =
        a :: b :: c :: dg :: '8' :: f :: t := hd
    simp only [List.cons.injEq, true_and, and_true] at hd2
    exact digitChar_lt_eight_ne i hi8 hd2

/-- C9 witness: the virtual id `"123481"` is never replaced by itself,
even when it is the only existing id. -/
theorem c9_witness :
    isVirtualStopId "123481" = true ∧
    find_replacement_stop "123481" ["123481"] ≠ some "123481" :=
  ⟨by decide, c9_replacement_never_self "123481" ["123481"] (by decide)⟩

/-- C10 counterexample: the seven-character id `"123481\n"` is selected
by `find_virtual_stops` (Python's `$` accepts the trailing newline),
contradicting the claim that only ids of exactly six characters are
selected. -/
theorem c10_counterexample :
    "123481\n" ∈ find_virtual_stops ["123481\n"] ∧
    ("123481\n" : String).length ≠ 6 := by
  decide

/-- C10 (amended): every id selected by `find_virtual_stops` matches
the implemented virtual pattern (four digits, `'8'`, a digit 1-9,
optionally a trailing newline accepted by Python's `$`); in particular
no id with the `_gtfs_` working-namespace marker is ever selected, so
the merger never deletes or repoints an unresolved stop. -/
theorem c10_virtual_excludes_unresolved (all : List String) (sid : String)
    (h : sid ∈ find_virtual_stops all) :
    isVirtualStopId sid = true ∧ ∀ y, sid ≠ "_gtfs_" ++ y := by
  have hmem : isVirtualStopId sid = true := by
    unfold find_virtual_stops at h
    exact (List.mem_filter.mp h).2
  refine ⟨hmem, ?_⟩
  obtain ⟨a, b, c, dg, f, t, hdata, ha⟩ := virtual_id_shape sid hmem
  apply ne_gtfs_append_of_head
  rw [hdata]
  intro hcontra
  have ha' : a = '_' := by simpa using hcontra
  rw [ha'] at ha
  exact absurd ha (by decide)

/-- C10 witness: the virtual id `"123481"` is selected and does not
carry the working-namespace marker. -/
theorem c10_witness :
    isVirtualStopId "123481" = true ∧
    ∀ y, ("123481" : String) ≠ "_gtfs_" ++ y :=
  c10_virtual_excludes_unresolved ["123481"] "123481" (by decide)

/-- C5: effects of `process_stop` for a resolved stop. In a merge event
(resolved id already seen) the referencing `stop_times` rows are
repointed, the duplicate stop row is deleted, every stop row with a
different id — in particular the surviving target — is kept, and the
seen set is unchanged. For a fresh resolved id only the stop's own row
is renamed, `stop_times` is untouched, and the id is marked as seen. -/
theorem c5_process_stop_frame (d : ℚ → ℚ → ℚ → ℚ → ℚ)
    (groups : List ExternalStopGroup) (stop : Stop) (db : DB)
    (seen : List String) (fid : String)
    (hfid : match_stop d groups stop = fid) (hne : fid ≠ "")
    (hneq : fid ≠ stop.id) :
    (fid ∈ seen →
      process_stop d groups stop (db, seen) =
        (⟨db.stops.filter (fun s => s.id ≠ stop.id),
          db.stop_times.map (fun st =>
            if st.stop_id = stop.id then { st with stop_id := fid } else st)⟩,
          seen) ∧
      ∀ s ∈ db.stops, s.id = fid →
        s ∈ (process_stop d groups stop (db, seen)).1.stops) ∧
    (fid ∉ seen →
      process_stop d groups stop (db, seen) =
        (⟨db.stops.map (fun s =>
            if s.id = stop.id then { s with id := fid } else s),
          db.stop_times⟩,
          fid :: seen)) := by
  obtain ⟨stops, times⟩ := db
  constructor
  · intro hmem
    have heq : process_stop d groups stop (⟨stops, times⟩, seen) =
        (⟨stops.filter (fun s => s.id ≠ stop.id),
          times.map (fun st =>
            if st.stop_id = stop.id then { st with stop_id := fid } else st)⟩,
          seen) := by
      simp only [process_stop, hfid]
      rw [if_neg hne, if_pos hmem]
      rfl
    refine ⟨heq, ?_⟩
    intro s hs hsid
    rw [heq]
    show s ∈ stops.filter (fun s => s.id ≠ stop.id)
    refine List.mem_filter.mpr ⟨hs, ?_⟩
    have hsne : s.id ≠ stop.id := by
      rw [hsid]
      exact hneq
    exact decide_eq_true hsne
  · intro hnmem
    simp only [process_stop, hfid]
    rw [if_neg hne, if_neg hnmem]
    rfl

/-- A second raw stop resolving to the already-assigned `"123401"`. -/
def stopDup : Stop := ⟨"_gtfs_D01", "01", "Foo", 0, 0⟩

/-- A database holding the surviving target `"123401"`, the duplicate
raw stop, and two `stop_times` rows. -/
def dbMerge : DB :=
  ⟨[⟨"123401", "01", "Foo", 0, 0⟩, stopDup],
   [⟨"t1", 0, "_gtfs_D01"⟩, ⟨"t1", 1, "999999"⟩]⟩

/-- Evaluation of `match_stop` on the duplicate fixture. -/
lemma stopDup_match : match_stop dZero [grpFoo] stopDup = "123401" := by
  rw [match_stop_dZero_unique [grpFoo] stopDup grpFoo (by decide) (by decide)]
  decide

/-- C5 witness: the duplicate fixture triggers the merge branch. -/
theorem c5_witness :
    ("123401" ∈ ["123401"] →
      process_stop dZero [grpFoo] stopDup (dbMerge, ["123401"]) =
        (⟨dbMerge.stops.filter (fun s => s.id ≠ stopDup.id),
          dbMerge.stop_times.map (fun st =>
            if st.stop_id = stopDup.id then { st with stop_id := "123401" } else st)⟩,
          ["123401"]) ∧
      ∀ s ∈ dbMerge.stops, s.id = "123401" →
        s ∈ (process_stop dZero [grpFoo] stopDup (dbMerge, ["123401"])).1.stops) ∧
    ("123401" ∉ ["123401"] →
      process_stop dZero [grpFoo] stopDup (dbMerge, ["123401"]) =
        (⟨dbMerge.stops.map (fun s =>
            if s.id = stopDup.id then { s with id := "123401" } else s),
          dbMerge.stop_times⟩,
          "123401" :: ["123401"])) :=
  c5_process_stop_frame dZero [grpFoo] stopDup dbMerge ["123401"] "123401"
    stopDup_match (by decide) (by decide)

/-- The rename statement on a stop list decomposed around the unique
row carrying the old id rewrites exactly that row. -/
lemma updateStops_decomposed (new_id old_id : String) (l1 l2 : List Stop)
    (mid : Stop) (times : List StopTime)
    (h1 : ∀ t ∈ l1, t.id ≠ old_id) (hmid : mid.id = old_id)
    (h2 : ∀ t ∈ l2, t.id ≠ old_id) :
    updateStopsStopId new_id old_id ⟨l1 ++ mid :: l2, times⟩ =
      ⟨l1 ++ { mid with id := new_id } :: l2, times⟩ := by
  unfold updateStopsStopId
  have hl1 : l1.map (fun t => if t.id = old_id then { t with id := new_id } else t)
      = l1 := by
    have hpt : ∀ t ∈ l1,
        (if t.id = old_id then { t with id := new_id } else t) = t :=
      fun t ht => if_neg (h1 t ht)
    calc l1.map (fun t => if t.id = old_id then { t with id := new_id } else t)
        = l1.map id := List.map_congr_left hpt
      _ = l1 := List.map_id l1
  have hl2 : l2.map (fun t => if t.id = old_id then { t with id := new_id } else t)
      = l2 := by
    have hpt : ∀ t ∈ l2,
        (if t.id = old_id then { t with id := new_id } else t) = t :=
      fun t ht => if_neg (h2 t ht)
    calc l2.map (fun t => if t.id = old_id then { t with id := new_id } else t)
        = l2.map id := List.map_congr_left hpt
      _ = l2 := List.map_id l2
  have hmid' : (if mid.id = old_id then { mid with id := new_id } else mid) =
      { mid with id := new_id } := if_pos hmid
  show (⟨(l1 ++ mid :: l2).map
      (fun t => if t.id = old_id then { t with id := new_id } else t), times⟩ : DB) = _
  rw [List.map_append, List.map_cons, hl1, hl2, hmid']

/-- Invariant of the rewriting loop of `executeFixStops` on an already
fully resolved stop set: with `done` already restored and the remaining
tagged stops still to process, the loop restores every remaining stop
to its original id and never touches `stop_times`. -/
lemma fold_restores (d : ℚ → ℚ → ℚ → ℚ → ℚ) (groups : List ExternalStopGroup)
    (times : List StopTime) :
    ∀ (rest done : List Stop) (seen : List String),
      (∀ s ∈ rest, match_stop d groups s = s.id) →
      (∀ s ∈ rest, s.id ≠ "") →
      (((done ++ rest).map Stop.id).Nodup) →
      (∀ s ∈ done, ∀ y, s.id ≠ "_gtfs_" ++ y) →
      (∀ s ∈ rest, ∀ y, s.id ≠ "_gtfs_" ++ y) →
      (∀ x ∈ seen, x ∈ done.map Stop.id) →
      ∃ seen2,
        (rest.map gtfsTag).foldl (fun acc t => process_stop d groups t acc)
            (⟨done ++ rest.map gtfsTag, times⟩, seen) =
          (⟨done ++ rest, times⟩, seen2) ∧
        ∀ x ∈ seen2, x ∈ (done ++ rest).map Stop.id := by
  intro rest
  induction rest with
  | nil =>
    intro done seen _ _ _ _ _ hseen
    exact ⟨seen, rfl, by simpa using hseen⟩
  | cons s rest ih =>
    intro done seen h1 h2 h3 h4 h5 hseen
    have hmatch : match_stop d groups (gtfsTag s) = s.id := by
      have hsame : match_stop d groups (gtfsTag s) = match_stop d groups s := rfl
      rw [hsame]
      exact h1 s (List.mem_cons_self s rest)
    have hsid_ne : s.id ≠ "" := h2 s (List.mem_cons_self s rest)
    have hdisj : s.id ∉ done.map Stop.id := by
      intro hmemdone
      rw [List.map_append] at h3
      have hdis := List.disjoint_of_nodup_append h3
      exact (List.disjoint_left.mp hdis hmemdone)
        (List.mem_map_of_mem Stop.id (List.mem_cons_self s rest))
    have hnotseen : s.id ∉ seen := fun hmem => hdisj (hseen s.id hmem)
    have hnods : s.id ∉ rest.map Stop.id := by
      have h3' := h3
      rw [List.map_append] at h3'
      have hr := h3'.of_append_right
      rw [List.map_cons] at hr
      exact (List.nodup_cons.mp hr).1
    have hstep : process_stop d groups (gtfsTag s)
        (⟨done ++ (s :: rest).map gtfsTag, times⟩, seen) =
        (⟨(done ++ [s]) ++ rest.map gtfsTag, times⟩, s.id :: seen) := by
      simp only [process_stop, hmatch]
      rw [if_neg hsid_ne, if_neg hnotseen]
      rw [List.map_cons]
      have hupd := updateStops_decomposed s.id (gtfsTag s).id done
        (rest.map gtfsTag) (gtfsTag s) times
        (fun t ht => h4 t ht s.id) rfl
        (by
          intro t ht hteq
          obtain ⟨r, hr, hrt⟩ := List.mem_map.mp ht
          rw [← hrt] at hteq
          have : r.id = s.id := gtfs_append_inj hteq
          exact hnods (this ▸ List.mem_map_of_mem Stop.id hr))
      rw [hupd]
      have hmids : ({ gtfsTag s with id := s.id } : Stop) = s := rfl
      rw [hmids, List.append_assoc]
      rfl
    have h1' : ∀ t ∈ rest, match_stop d groups t = t.id :=
      fun t ht => h1 t (List.mem_cons_of_mem s ht)
    have h2' : ∀ t ∈ rest, t.id ≠ "" :=
      fun t ht => h2 t (List.mem_cons_of_mem s ht)
    have h3'' : (((done ++ [s]) ++ rest).map Stop.id).Nodup := by
      rw [List.append_assoc]
      exact h3
    have h4' : ∀ t ∈ done ++ [s], ∀ y, t.id ≠ "_gtfs_" ++ y := by
      intro t ht
      rcases List.mem_append.mp ht with hd | hs'
      · exact h4 t hd
      · rw [List.mem_singleton] at hs'
        subst hs'
        exact h5 t (List.mem_cons_self t rest)
    have h5' : ∀ t ∈ rest, ∀ y, t.id ≠ "_gtfs_" ++ y :=
      fun t ht => h5 t (List.mem_cons_of_mem s ht)
    have hseen' : ∀ x ∈ s.id :: seen, x ∈ (done ++ [s]).map Stop.id := by
      intro x hx
      rw [List.map_append]
      rcases List.mem_cons.mp hx with rfl | hx'
      · exact List.mem_append.mpr (Or.inr (by simp))
      · exact List.mem_append.mpr (Or.inl (hseen x hx'))
    obtain ⟨seen2, hfold, hseen2⟩ :=
      ih (done ++ [s]) (s.id :: seen) h1' h2' h3'' h4' h5' hseen'
    refine ⟨seen2, ?_, ?_⟩
    · have hfoldstep : ((s :: rest).map gtfsTag).foldl
          (fun acc t => process_stop d groups t acc)
          (⟨done ++ (s :: rest).map gtfsTag, times⟩, seen) =
          (rest.map gtfsTag).foldl (fun acc t => process_stop d groups t acc)
            (process_stop d groups (gtfsTag s)
              (⟨done ++ (s :: rest).map gtfsTag, times⟩, seen)) := rfl
      rw [hfoldstep, hstep, hfold, List.append_assoc]
      rfl
    · intro x hx
      have hin := hseen2 x hx
      rw [List.append_assoc] at hin
      exact hin

/-- C6: running `executeFixStops` on a database whose stop set is
already fully resolved — every stop re-resolves, after the `_gtfs_`
tagging, to the very id it already holds, and the held ids are
pairwise distinct, non-empty and outside the working namespace —
changes neither the stops table nor the stop_times table. -/
theorem c6_execute_idempotent (d : ℚ → ℚ → ℚ → ℚ → ℚ)
    (groups : List ExternalStopGroup) (db : DB)
    (h1 : ∀ s ∈ db.stops, match_stop d groups s = s.id)
    (h2 : ∀ s ∈ db.stops, s.id ≠ "")
    (h3 : (db.stops.map Stop.id).Nodup)
    (h4 : ∀ s ∈ db.stops, ∀ y, s.id ≠ "_gtfs_" ++ y) :
    executeFixStops d groups db = db := by
  obtain ⟨stops, times⟩ := db
  obtain ⟨seen2, hfold, -⟩ := fold_restores d groups times stops [] [] h1 h2 h3
    (fun t ht => absurd ht (List.not_mem_nil t)) h4
    (fun x hx => absurd hx (List.not_mem_nil x))
  show ((stops.map gtfsTag).foldl (fun acc t => process_stop d groups t acc)
      (⟨stops.map gtfsTag, times⟩, [])).1 = (⟨stops, times⟩ : DB)
  exact congrArg Prod.fst hfold

/-- A database already carrying the resolved id `"123401"`. -/
def dbIdem : DB := ⟨[⟨"123401", "01", "Foo", 0, 0⟩], [⟨"t1", 0, "123401"⟩]⟩

/-- Every stop of `dbIdem` re-resolves to the id it already holds. -/
lemma dbIdem_match :
    ∀ s ∈ dbIdem.stops, match_stop dZero [grpFoo] s = s.id := by
  intro s hs
  have hs' : s = ⟨"123401", "01", "Foo", 0, 0⟩ := by simpa [dbIdem] using hs
  subst hs'
  rw [match_stop_dZero_unique [grpFoo] _ grpFoo (by decide) (by decide)]
  decide

/-- C6 witness: a second run of the rewriter over the already-resolved
`dbIdem` leaves it unchanged. -/
theorem c6_witness : executeFixStops dZero [grpFoo] dbIdem = dbIdem :=
  c6_execute_idempotent dZero [grpFoo] dbIdem dbIdem_match (by decide)
    (by decide)
    (by
      intro s hs
      have hs' : s = ⟨"123401", "01", "Foo", 0, 0⟩ := by simpa [dbIdem] using hs
      subst hs'
      exact ne_gtfs_append_of_head _ (by decide))

end WarsawGtfs
